import Mathlib

/-!
Verification development for the `twitch_firetvappstate` repository
(file `twitch_playback.py`).  The Python module polls an Android TV
device over ADB and derives three signals (app focus, playback state,
active channel) from textual and XML diagnostic output.

The definitions below are a shallow embedding of that module:

* pure text parsers (`_parse_twitch_playbackstate`,
  `_parse_twitch_appinfocus`) are embedded as Lean functions on
  `String` / `List Char`, with the Python regular expressions compiled
  by hand into explicit scanning functions that reproduce the leftmost
  match and greedy backtracking semantics of the `re` module;
* the XML sibling lookup (`find_prev_sibling_of_profile`,
  `get_text_before_profile`) is embedded over an explicit tree type,
  together with a small recursive-descent parser modelling the subset
  of `xml.etree.ElementTree.fromstring` behaviour the code relies on
  (elements, attributes, self-closing tags; a malformed document
  yields `none`);
* the stateful parts (ADB session, HomeAssistant publishing, the poll
  loop `_loop`) are embedded as explicit state-passing functions over
  a `LoopState` record, with the external collaborators (the
  `adb_shell` transport, the HomeAssistant state sink) modelled by an
  environment `Env` describing their behaviour for one tick, and with
  a ghost trace of observable actions (shell I/O, publishes, fired
  events) used to state non-interference properties.  Wall-clock
  timestamps in published attributes are not modelled.
-/

/-! ## Character classes (Python `re` semantics, ASCII range) -/

/-- Python whitespace class for `\s` (ASCII part). -/
def isSpacePy (c : Char) : Bool :=
  c = ' ' || c = '\t' || c = '\n' || c = '\r' || c = Char.ofNat 11 || c = Char.ofNat 12

/-- Python word-character class for `\w` and word boundaries (ASCII part). -/
def isWordPy (c : Char) : Bool :=
  c.isAlphanum || c = '_'

/-- The apostrophe character, kept out of string literals. -/
def apos : Char := Char.ofNat 39

/-- Opening curly brace character. -/
def obrace : Char := Char.ofNat 123

/-- Closing curly brace character. -/
def cbrace : Char := Char.ofNat 125

/-- Numeric value of a digit string, as produced by Python `int()`. -/
def digitsVal (ds : List Char) : Nat :=
  ds.foldl (fun a c => 10 * a + (c.toNat - 48)) 0

/-! ## List helpers -/

/-- Boolean substring test on `List Char`; embeds the Python `in`
operator on strings. -/
def subList (n : List Char) : List Char → Bool
  | [] => n.isEmpty
  | c :: t => n.isPrefixOf (c :: t) || subList n t

/-- Boolean substring test on `String`; embeds the Python `in`
operator on strings. -/
def hasSub (n h : String) : Bool := subList n.data h.data

/-- First suffix of the text that starts with the given pattern;
embeds Python `text.find(pat)` followed by `text[idx:]`. -/
def findSuffixWith (pat : List Char) : List Char → Option (List Char)
  | [] => if pat.isEmpty then some [] else none
  | l@(_ :: t) => if pat.isPrefixOf l then some l else findSuffixWith pat t

/-- Embeds Python `str.split` with separator LF: splits on every LF
and keeps empty segments, so the result always has one more segment
than there are separators. -/
def splitNl : List Char → List (List Char)
  | [] => [[]]
  | '\n' :: cs => [] :: splitNl cs
  | c :: cs =>
    match splitNl cs with
    | [] => [[c]]
    | l :: ls => (c :: l) :: ls

/-- Embeds Python `str.splitlines()`: splits on LF, CR and CRLF, with
no trailing empty line for a trailing terminator. -/
def splitLinesPy : List Char → List (List Char)
  | [] => []
  | '\r' :: '\n' :: cs => [] :: splitLinesPy cs
  | '\r' :: cs => [] :: splitLinesPy cs
  | '\n' :: cs => [] :: splitLinesPy cs
  | c :: cs =>
    match splitLinesPy cs with
    | [] => [[c]]
    | l :: ls => (c :: l) :: ls

/-! ## The PlaybackState record matcher

Hand compilation of the Python regular expression
`PlaybackState\s*\{[^}]*\bstate\s*=\s*(\d+)\b` under `re.search`
semantics: leftmost starting position wins; the character class
`[^}]*` is greedy, so on success the captured digits come from the
last position inside the brace span at which the `state` part
matches. -/

/-- Try to match the `\bstate\s*=\s*(\d+)\b` part of the pattern with
the `[^}]*` prefix having consumed `j` characters of `body` (the text
after the opening brace).  The character before position `j` is the
opening brace when `j = 0`, hence the leading word boundary holds
there. -/
def stateCheck (body : List Char) (j : Nat) : Option Nat :=
  let boundaryOk : Bool :=
    match j with
    | 0 => true
    | jp + 1 =>
      match body[jp]? with
      | some c => !(isWordPy c)
      | none => false
  if boundaryOk then
    let sfx := body.drop j
    if ("state".data).isPrefixOf sfx then
      let r := (sfx.drop 5).dropWhile isSpacePy
      match r with
      | '=' :: r1 =>
        let r2 := r1.dropWhile isSpacePy
        let ds := r2.takeWhile Char.isDigit
        if ds.isEmpty then none
        else
          match (r2.drop ds.length).head? with
          | some c => if isWordPy c then none else some (digitsVal ds)
          | none => some (digitsVal ds)
      | _ => none
    else none
  else none

/-- Greedy backtracking for `[^}]*`: try the largest prefix length
first and retreat towards zero. -/
def lastHit (body : List Char) : Nat → Option Nat
  | 0 => stateCheck body 0
  | j + 1 =>
    match stateCheck body (j + 1) with
    | some n => some n
    | none => lastHit body j

/-- Match the pattern tail after the opening brace. -/
def spanScan (body : List Char) : Option Nat :=
  lastHit body (body.takeWhile (fun c => c ≠ cbrace)).length

/-- Try to match the whole `PlaybackState` pattern at the head of
`l`. -/
def tryPS (l : List Char) : Option Nat :=
  if ("PlaybackState".data).isPrefixOf l then
    match (l.drop 13).dropWhile isSpacePy with
    | c :: body => if c = obrace then spanScan body else none
    | [] => none
  else none

/-- Leftmost match of the `PlaybackState` pattern anywhere in the
text, as `re.search` computes it. -/
def searchPS : List Char → Option Nat
  | [] => none
  | l@(_ :: t) =>
    match tryPS l with
    | some n => some n
    | none => searchPS t

/-! ## The fallback header matcher

Hand compilation of the header part of the fallback regular
expression `TwitchMediaSession\s+tv\.twitch\.android\.viewer/`.
Since the expression is evaluated with `re.DOTALL`, the gap
`.*?(?:\n.*){0,40}?` can reach any later position of the text, so the
40-line bound is void and a successful overall match is: the first
position where the header part matches, followed anywhere later by a
`PlaybackState` record match.  The engine visits the candidate start
positions of that record in a specific order: while the lazy `.*?`
grows one character at a time, the record is tried at each position
left to right, until the gap reaches the first newline of the
remainder; there the group consumes the newline and its greedy inner
`.*` (which under DOTALL spans the rest of the text) makes the engine
try the remaining start positions right to left, so beyond the first
newline the last matching record wins. -/

/-- Match the header at the head of `l`; on success return the
remainder of the text after the `viewer/` part. -/
def tryHeader (l : List Char) : Option (List Char) :=
  if ("TwitchMediaSession".data).isPrefixOf l then
    let r := l.drop 18
    match r with
    | c :: _ =>
      if isSpacePy c then
        let r2 := r.dropWhile isSpacePy
        if ("tv.twitch.android.viewer/".data).isPrefixOf r2 then
          some (r2.drop 25)
        else none
      else none
    | [] => none
  else none

/-- Remainder of the text after the first header match, if any. -/
def headerRemainder : List Char → Option (List Char)
  | [] => none
  | l@(_ :: t) =>
    match tryHeader l with
    | some rest => some rest
    | none => headerRemainder t

/-- Leftmost `PlaybackState` match among the first `bound` start
positions of the text: the ascending attempts of the lazy gap before
it crosses the first newline. -/
def searchPSUpTo : List Char → Nat → Option Nat
  | _, 0 => none
  | [], _ => none
  | l@(_ :: t), b + 1 =>
    match tryPS l with
    | some n => some n
    | none => searchPSUpTo t b

/-- Rightmost `PlaybackState` match in the text: the descending
attempts produced by the greedy inner dot-star once the gap has
consumed a newline. -/
def searchPSLast : List Char → Option Nat
  | [] => none
  | l@(_ :: t) =>
    match searchPSLast t with
    | some n => some n
    | none => tryPS l

/-- The fallback expression applied to the remainder after the first
header match, reproducing the engine's attempt order described
above: left to right on the part before the first newline, then
right to left over everything after it; with no newline in the
remainder only the ascending sweep exists. -/
def fallbackScan (r : List Char) : Option Nat :=
  match r.findIdx? (· == '\n') with
  | none => searchPS r
  | some lstar =>
    match searchPSUpTo r lstar with
    | some n => some n
    | none => searchPSLast (r.drop (lstar + 1))

namespace TwitchPlayback

/-- Anchor string used by the fast path of
`_parse_twitch_playbackstate`. -/
def anchorPS : String := "TwitchMediaSession tv.twitch.android.viewer/TwitchMediaSession"

/-- Embeds `TwitchPlayback._parse_twitch_playbackstate`: fast path
scans the first 40 lines after the anchor for a `PlaybackState`
record; otherwise the fallback regular expression (whose 40-line
window is voided by `re.DOTALL`, see above) is applied to the whole
text. -/
def parse_twitch_playbackstate (text : String) : Option Nat :=
  if text = "" then none
  else
    let cs := text.data
    let fast : Option Nat :=
      match findSuffixWith anchorPS.data cs with
      | some sfx => ((splitLinesPy sfx).take 40).findSome? searchPS
      | none => none
    match fast with
    | some n => some n
    | none =>
      match headerRemainder cs with
      | some rest => fallbackScan rest
      | none => none

/-- Package identifier substring used by `_parse_twitch_appinfocus`. -/
def anchorFocus : String := "tv.twitch.android.viewer"

/-- Focus marker substring used by `_parse_twitch_appinfocus`. -/
def markerFocus : String := "mCurrentFocus="

/-- Embeds `TwitchPlayback._parse_twitch_appinfocus`: `None` on empty
input, else true iff some LF-separated line contains both the package
identifier and the focus marker. -/
def parse_twitch_appinfocus (text : String) : Option Bool :=
  if text = "" then none
  else
    some ((splitNl text.data).any fun x =>
      subList anchorFocus.data x && subList markerFocus.data x)

end TwitchPlayback

/-! ## UI hierarchy trees

`xml.etree.ElementTree` elements are modelled by `XTree`: a tag, an
attribute list and a list of child elements.  Text content between
tags is not represented because the Python code never reads it. -/

inductive XTree where
  | node (tag : String) (attrs : List (String × String)) (children : List XTree)

/-- Tag of an element. -/
def XTree.tagOf : XTree → String
  | .node t _ _ => t

/-- Attribute list of an element. -/
def XTree.attrsOf : XTree → List (String × String)
  | .node _ a _ => a

/-- Children of an element, in document order. -/
def XTree.childrenOf : XTree → List XTree
  | .node _ _ c => c

mutual

/-- Document pre-order traversal of a tree, the iteration order of
`Element.iter()`. -/
def preorder : XTree → List XTree
  | .node t a cs => .node t a cs :: preorderList cs

/-- Pre-order traversal of a forest. -/
def preorderList : List XTree → List XTree
  | [] => []
  | t :: ts => preorder t ++ preorderList ts

end

/-- Embeds `child.attrib.get("text")` (no default). -/
def textAttrQ (t : XTree) : Option String :=
  (t.attrsOf.find? fun p => p.1 == "text").map (·.2)

/-- Embeds `child.attrib.get("text", "")`. -/
def textAttrD (t : XTree) : String :=
  (textAttrQ t).getD ""

/-- ASCII lowercasing of a tag, embedding `c.tag.lower()`. -/
def lowerTag (s : String) : List Char :=
  s.data.map Char.toLower

/-- The `node`-tagged children of an element, in document order;
embeds the list comprehension filtering `list(parent)`. -/
def nodeKids (t : XTree) : List XTree :=
  t.childrenOf.filter fun k => lowerTag k.tagOf = "node".data

/-- Hand compilation of `re.match` for the anchored pattern requiring
the text to read: literal Go-to prefix, then at least one character
other than LF, then an apostrophe-s-profile literal, then an optional
ellipsis, then the end of the string (a single trailing LF is also
accepted, as the dollar anchor does in Python). -/
def matchProfile (txt : String) : Bool :=
  let cs := txt.data
  if ("Go to ".data).isPrefixOf cs then
    let rest := cs.drop 6
    (List.range rest.length).any fun k =>
      decide (0 < k) &&
      (rest.take k).all (fun c => c ≠ '\n') &&
      (apos :: "s profile".data).isPrefixOf (rest.drop k) &&
      (let e := rest.drop (k + 10)
       e = [] || e = ['.', '.', '.'] || e = ['\n'] || e = ['.', '.', '.', '\n'])
  else false

/-- One step of the nested search in `find_prev_sibling_of_profile`,
for a single potential parent: `none` when no `node` child matches the
profile pattern (continue with the next parent in pre-order);
`some none` when the first matching child is at index 0 (the Python
code returns `None` for the whole search); `some (some prev)` when the
first matching child is at index `i + 1`, returning the child at
index `i`. -/
def parentStep (p : XTree) : Option (Option XTree) :=
  match (nodeKids p).findIdx? (fun k => matchProfile (textAttrD k)) with
  | none => none
  | some 0 => some none
  | some (i + 1) => some ((nodeKids p)[i]?)

/-- The search of `find_prev_sibling_of_profile` over an already
parsed tree: walk every element in pre-order as a potential parent and
stop at the first parent owning a matching `node` child. -/
def findPrevInTree (root : XTree) : Option XTree :=
  ((preorder root).findSome? parentStep).join

/-! ## A model of `ET.fromstring`

Recursive-descent parser for the XML language the UI dumps use:
elements with double- or single-quoted attributes (with the five
named entities and numeric character references decoded), self-closing
tags, matching close tags, comments and processing instructions (the
XML declaration included) in the prolog, in content and after the
root; text content is skipped because the Python code never reads it.
Doctype declarations and CDATA sections are not modelled.  Any input
outside this language yields `none`, the embedding of `ET.ParseError`
being caught. -/

/-- Characters accepted in element and attribute names. -/
def isNameChar (c : Char) : Bool :=
  c.isAlphanum || c = '_' || c = '-' || c = ':' || c = '.'

/-- Hexadecimal digit test for character references. -/
def isHexDigitPy (c : Char) : Bool :=
  c.isDigit || (decide (97 ≤ c.toNat) && decide (c.toNat ≤ 102))
    || (decide (65 ≤ c.toNat) && decide (c.toNat ≤ 70))

/-- Numeric value of a hexadecimal digit string. -/
def hexVal (ds : List Char) : Nat :=
  ds.foldl
    (fun a c =>
      16 * a +
        (if c.isDigit then c.toNat - 48
         else if decide (97 ≤ c.toNat) then c.toNat - 87
         else c.toNat - 55))
    0

/-- The character denoted by a numeric character reference, `none`
when the code point is not an XML character (the parser raises
then). -/
def charOfCode (n : Nat) : Option Char :=
  if n = 9 ∨ n = 10 ∨ n = 13 ∨ (32 ≤ n ∧ n ≤ 55295) ∨
      (57344 ≤ n ∧ n ≤ 65533) ∨ (65536 ≤ n ∧ n ≤ 1114111) then
    some (Char.ofNat n)
  else none

/-- Decode one entity reference after the ampersand: one of the five
XML named entities, or a decimal or hexadecimal character reference;
`none` embeds the parse error raised on an undefined or malformed
reference. -/
def decodeEntRef (cs : List Char) : Option (Char × List Char) :=
  if ("amp;".data).isPrefixOf cs then some ('&', cs.drop 4)
  else if ("lt;".data).isPrefixOf cs then some ('<', cs.drop 3)
  else if ("gt;".data).isPrefixOf cs then some ('>', cs.drop 3)
  else if ("quot;".data).isPrefixOf cs then some ('"', cs.drop 5)
  else if ("apos;".data).isPrefixOf cs then some (apos, cs.drop 5)
  else
    match cs with
    | '#' :: 'x' :: t =>
      let ds := t.takeWhile isHexDigitPy
      if ds.isEmpty then none
      else
        match t.drop ds.length with
        | ';' :: rest => (charOfCode (hexVal ds)).map (·, rest)
        | _ => none
    | '#' :: t =>
      let ds := t.takeWhile Char.isDigit
      if ds.isEmpty then none
      else
        match t.drop ds.length with
        | ';' :: rest => (charOfCode (digitsVal ds)).map (·, rest)
        | _ => none
    | _ => none

/-- Decode the entity references inside an attribute value; `none` on
a bare ampersand or an undefined reference, as `ET.fromstring`
raises. -/
def decodeAttrVal : Nat → List Char → Option (List Char)
  | 0, _ => none
  | _ + 1, [] => some []
  | fuel + 1, '&' :: t =>
    match decodeEntRef t with
    | some (c, rest) => (decodeAttrVal fuel rest).map (c :: ·)
    | none => none
  | fuel + 1, c :: t => (decodeAttrVal fuel t).map (c :: ·)

/-- Skip whitespace, processing instructions (the XML declaration
included) and comments, as allowed before and after the root
element. -/
def skipProlog : Nat → List Char → Option (List Char)
  | 0, _ => none
  | fuel + 1, cs =>
    let cs1 := cs.dropWhile isSpacePy
    match cs1 with
    | '<' :: '?' :: t =>
      match findSuffixWith ("?>".data) t with
      | some sfx => skipProlog fuel (sfx.drop 2)
      | none => none
    | '<' :: '!' :: '-' :: '-' :: t =>
      match findSuffixWith ("-->".data) t with
      | some sfx => skipProlog fuel (sfx.drop 3)
      | none => none
    | _ => some cs1

/-- Parse the attribute list of a start tag, up to and including the
closing angle bracket; the middle component reports a self-closing
tag. -/
def parseAttrList : Nat → List Char → Option (List (String × String) × Bool × List Char)
  | 0, _ => none
  | fuel + 1, cs =>
    let cs1 := cs.dropWhile isSpacePy
    match cs1 with
    | '>' :: rest => some ([], false, rest)
    | '/' :: '>' :: rest => some ([], true, rest)
    | _ =>
      let nm := cs1.takeWhile isNameChar
      if nm.isEmpty then none
      else
        let cs2 := (cs1.drop nm.length).dropWhile isSpacePy
        match cs2 with
        | '=' :: cs3 =>
          let cs4 := cs3.dropWhile isSpacePy
          match cs4 with
          | q :: cs5 =>
            if q = '"' || q = apos then
              let v := cs5.takeWhile fun c => c ≠ q
              match cs5.drop v.length with
              | _ :: cs6 =>
                match decodeAttrVal (v.length + 1) v with
                | some dv =>
                  match parseAttrList fuel cs6 with
                  | some (as, sc, rest) =>
                    some ((String.mk nm, String.mk dv) :: as, sc, rest)
                  | none => none
                | none => none
              | [] => none
            else none
          | [] => none
        | _ => none

mutual

/-- Parse one element starting at an opening angle bracket. -/
def parseElement : Nat → List Char → Option (XTree × List Char)
  | 0, _ => none
  | fuel + 1, cs =>
    match cs with
    | '<' :: cs1 =>
      let nm := cs1.takeWhile isNameChar
      if nm.isEmpty then none
      else
        match parseAttrList (cs.length + 1) (cs1.drop nm.length) with
        | some (attrs, true, rest) => some (XTree.node (String.mk nm) attrs [], rest)
        | some (attrs, false, rest) =>
          match parseChildren fuel rest nm with
          | some (kids, rest2) => some (XTree.node (String.mk nm) attrs kids, rest2)
          | none => none
        | none => none
    | _ => none

/-- Parse child elements until the matching close tag for `nm`,
skipping text content, comments and processing instructions. -/
def parseChildren : Nat → List Char → List Char → Option (List XTree × List Char)
  | 0, _, _ => none
  | fuel + 1, cs, nm =>
    let cs1 := cs.dropWhile fun c => c ≠ '<'
    match cs1 with
    | '<' :: '/' :: cs2 =>
      let nm2 := cs2.takeWhile isNameChar
      if nm2 = nm then
        match (cs2.drop nm2.length).dropWhile isSpacePy with
        | '>' :: rest => some ([], rest)
        | _ => none
      else none
    | '<' :: '!' :: '-' :: '-' :: cs2 =>
      match findSuffixWith ("-->".data) cs2 with
      | some sfx => parseChildren fuel (sfx.drop 3) nm
      | none => none
    | '<' :: '?' :: cs2 =>
      match findSuffixWith ("?>".data) cs2 with
      | some sfx => parseChildren fuel (sfx.drop 2) nm
      | none => none
    | '<' :: _ =>
      match parseElement fuel cs1 with
      | some (t, rest) =>
        match parseChildren fuel rest nm with
        | some (ts, rest2) => some (t :: ts, rest2)
        | none => none
      | none => none
    | _ => none

end

/-- Model of `ET.fromstring` on the language above: an optional
prolog, a single root element and an optional trailer; `none` on any
malformed input. -/
def parseXML (s : String) : Option XTree :=
  match skipProlog (s.data.length + 1) s.data with
  | none => none
  | some cs =>
    match parseElement (2 * cs.length + 2) cs with
    | some (t, rest) =>
      match skipProlog (rest.length + 1) rest with
      | some r2 => if r2.isEmpty then some t else none
      | none => none
    | none => none

namespace TwitchPlayback

/-- Embeds `TwitchPlayback.find_prev_sibling_of_profile`: parse the
document (malformed input gives `none`), then search parents in
pre-order for the first one owning a `node` child whose text matches
the profile pattern. -/
def find_prev_sibling_of_profile (xml_text : String) : Option XTree :=
  match parseXML xml_text with
  | none => none
  | some root => findPrevInTree root

/-- Embeds `TwitchPlayback.get_text_before_profile`: the text
attribute of the found sibling, if any. -/
def get_text_before_profile (xml_text : String) : Option String :=
  (find_prev_sibling_of_profile xml_text).bind textAttrQ

end TwitchPlayback

/-! ## State of the poller and its environment

`LoopState` collects the mutable instance fields of the Python class
that the claims are about, plus the published-state store of the
HomeAssistant sink (`sink`, an append-only log; the current value of
an entity is its last write).  `Env` describes the behaviour of the
external collaborators during one poll tick: the result of an ADB
connect attempt, the behaviour of `adb.shell` per command string,
whether a close raises (always swallowed), and after how many
HomeAssistant API calls an unexpected exception is raised (`none` for
never), which exercises the `except` path of `_loop`. -/

/-- A value published to the state sink: Python passes either an
integer or a string as the entity state. -/
inductive PVal where
  | pNum (n : Nat)
  | pStr (s : String)
deriving DecidableEq

/-- Observable actions of one tick, recorded in a ghost trace. -/
inductive Act where
  | connectCall (ok : Bool)
  | shellEx (cmd : String) (failed : Bool)
  | closeCall
  | publishS (entity : String) (v : PVal)
  | eventF (name : String)
deriving DecidableEq

/-- The mutable state owned by the poller, together with the sink
store. -/
structure LoopState where
  connected : Bool
  adb : Option Unit
  lastPB : Option Nat
  lastF : Option Bool
  lastCh : Option String
  sink : List (String × PVal)
  pfx : String
deriving DecidableEq

/-- Behaviour of one `adb.shell` call: raise, return bytes (with the
result of a permissive decode, `none` meaning the decode raises),
return a string, or return a non-string non-bytes value. -/
inductive ShellBeh where
  | sraise
  | sbytes (nonempty : Bool) (decoded : Option String)
  | sstr (s : String)
  | snone

/-- Behaviour of one `_connect` attempt: some step of it raises, or
`adb.connect` returns the given truth value. -/
inductive ConnectRes where
  | craise
  | cret (ok : Bool)

/-- External behaviour for one tick. -/
structure Env where
  connectRes : ConnectRes
  shell : String → ShellBeh
  closeRaises : Bool
  haBudget : Option Nat

/-- Result of a stateful computation: normal return carrying the
state, the ghost trace and the remaining HomeAssistant call budget,
or an uncaught exception carrying the state at the raise point. -/
inductive TRes (α : Type) where
  | ok (a : α) (s : LoopState) (tr : List Act) (b : Option Nat)
  | exc (s : LoopState) (tr : List Act)

/-- Stateful computations of the embedding. -/
def TM (α : Type) : Type :=
  LoopState → List Act → Option Nat → TRes α

/-- Sequencing; an exception skips the continuation, as in Python. -/
def tbind {α β : Type} (m : TM α) (f : α → TM β) : TM β := fun s tr b =>
  match m s tr b with
  | .ok a s1 tr1 b1 => f a s1 tr1 b1
  | .exc s1 tr1 => .exc s1 tr1

/-- Pure value. -/
def tpure {α : Type} (a : α) : TM α := fun s tr b => .ok a s tr b

/-- Read the current state. -/
def getSt : TM LoopState := fun s tr b => .ok s s tr b

/-- Pure state update (a Python attribute assignment, which cannot
raise). -/
def modSt (f : LoopState → LoopState) : TM Unit := fun s tr b => .ok () (f s) tr b

/-- One HomeAssistant API call: consumes budget and may raise; on
success applies the effect and appends the given trace actions. -/
def haTry (eff : LoopState → LoopState) (acts : List Act) : TM Unit := fun s tr b =>
  match b with
  | some 0 => .exc s tr
  | some (n + 1) => .ok () (eff s) (tr ++ acts) (some n)
  | none => .ok () (eff s) (tr ++ acts) none

/-- Embeds `self.set_state(entity, state=v, attributes=...)`; the
timestamped attributes are not modelled. -/
def set_state (ent : String) (v : PVal) : TM Unit :=
  haTry (fun s => { s with sink := s.sink ++ [(ent, v)] }) [.publishS ent v]

/-- Embeds `self.fire_event(name, ...)`; the payload is not
modelled. -/
def fire_event (name : String) : TM Unit :=
  haTry id [.eventF name]

/-- Current value of an entity in the sink store: last write wins,
`none` when never written (AppDaemon `get_state` returns `None`
then). -/
def sinkLookup (sink : List (String × PVal)) (ent : String) : Option PVal :=
  (sink.reverse.find? fun p => p.1 == ent).map (·.2)

/-- Embeds `self.get_state(entity)`. -/
def get_state (ent : String) : TM (Option PVal) := fun s tr b =>
  match b with
  | some 0 => .exc s tr
  | some (n + 1) => .ok (sinkLookup s.sink ent) s tr (some n)
  | none => .ok (sinkLookup s.sink ent) s tr none

/-- Python truthiness of a `get_state` result: `None` is falsy, an
integer is truthy iff nonzero, a string is truthy iff nonempty. -/
def truthyO : Option PVal → Bool
  | none => false
  | some (.pNum n) => n != 0
  | some (.pStr s) => s != ""

/-- Python truthiness of an optional boolean. -/
def truthyB : Option Bool → Bool
  | some true => true
  | _ => false

namespace TwitchPlayback

/-- Embeds `TwitchPlayback._adb_shell`: an immediate empty result
without transport I/O when disconnected or without a handle;
otherwise one `adb.shell` call whose raise (or a decode failure of a
bytes result) is caught, tearing the session down (`connected`
false, best-effort close with secondary errors swallowed, handle
discarded) and returning the empty string.  A nonempty decoded result
is returned as text; empty or non-text results give the empty
string. -/
def adb_shell (env : Env) (cmd : String) : TM String := fun s tr b =>
  if s.connected = false ∨ s.adb = none then .ok "" s tr b
  else
    match env.shell cmd with
    | .sraise =>
      .ok "" { s with connected := false, adb := none }
        (tr ++ [.shellEx cmd true, .closeCall]) b
    | .sbytes ne dec =>
      if ne then
        match dec with
        | some str => .ok str s (tr ++ [.shellEx cmd false]) b
        | none =>
          .ok "" { s with connected := false, adb := none }
            (tr ++ [.shellEx cmd true, .closeCall]) b
      else .ok "" s (tr ++ [.shellEx cmd false]) b
    | .sstr str => .ok str s (tr ++ [.shellEx cmd false]) b
    | .snone => .ok "" s (tr ++ [.shellEx cmd false]) b

/-- Embeds `TwitchPlayback._connect`: on any raise (key loading,
transport creation, connect) the flag is cleared and the handle
dropped; otherwise a fresh handle is stored and the flag is set from
the truthiness of the connect result. -/
def connectT (env : Env) : TM Unit := fun s tr b =>
  match env.connectRes with
  | .craise =>
    .ok () { s with connected := false, adb := none } (tr ++ [.connectCall false]) b
  | .cret ok =>
    .ok () { s with adb := some (), connected := ok } (tr ++ [.connectCall ok]) b

/-- Embeds the derived is-playing boolean `state_val == 3`. -/
def is_playing_of (v : Option Nat) : Bool := v == some 3

/-- Embeds `TwitchPlayback._publish_twitch_appinfocus`. -/
def pubFocus (v : Option Bool) : TM Unit :=
  tbind getSt fun s0 =>
  tbind (set_state ("binary_sensor." ++ s0.pfx ++ "_is_focused")
          (.pStr (if truthyB v then "on" else "off"))) fun _ =>
  tbind getSt fun s =>
  if v = s.lastF then tpure ()
  else
    tbind (modSt fun s1 => { s1 with lastF := v }) fun _ =>
    fire_event "twitch_is_focused_changed"

/-- Embeds `TwitchPlayback._publish_twitch_playbackstate`. -/
def pubPlayback (v : Option Nat) : TM Unit :=
  tbind getSt fun s0 =>
  tbind (set_state ("sensor." ++ s0.pfx ++ "_playback_state")
          (match v with | some n => .pNum n | none => .pStr "unknown")) fun _ =>
  tbind (set_state ("binary_sensor." ++ s0.pfx ++ "_playing")
          (.pStr (if is_playing_of v then "on" else "off"))) fun _ =>
  tbind getSt fun s =>
  if v = s.lastPB then tpure ()
  else
    tbind (modSt fun s1 => { s1 with lastPB := v }) fun _ =>
    fire_event "twitch_playback_state_changed"

/-- Embeds `TwitchPlayback._publish_twitch_playbackactivechannel`. -/
def pubChannel (v : Option String) : TM Unit :=
  tbind getSt fun s0 =>
  tbind (set_state ("sensor." ++ s0.pfx ++ "_playback_channel")
          (.pStr (v.getD "unknown"))) fun _ =>
  tbind getSt fun s =>
  if v = s.lastCh then tpure ()
  else
    tbind (modSt fun s1 => { s1 with lastCh := v }) fun _ =>
    fire_event "twitch_playback_active_channel_changed"

/-- The UI dump shell command issued by `_uia_dump_xml`. -/
def dumpCmd : String := "uiautomator dump --compressed /sdcard/window_dump.xml 2>&1"

/-- The read-back shell command issued by `_uia_dump_xml`. -/
def catCmd : String := "cat /sdcard/window_dump.xml"

/-- Embeds `TwitchPlayback._uia_dump_xml`. -/
def uiaDump (env : Env) : TM (Option String) :=
  tbind (adb_shell env dumpCmd) fun out =>
  if out = "" then tpure none
  else
    tbind (adb_shell env catCmd) fun xmlText =>
    if xmlText = "" ∨ hasSub "<hierarchy" xmlText = false then tpure none
    else tpure (some xmlText)

/-- The connected part of a tick: the three signal extractions and
publishes, in source order, including the read-back of the focus and
playing sensors from the sink under their hard-coded entity names. -/
def extraction (env : Env) : TM Unit :=
  tbind (adb_shell env "dumpsys window") fun out =>
  tbind (pubFocus (if out = "" then none else parse_twitch_appinfocus out)) fun _ =>
  tbind (adb_shell env "dumpsys media_session") fun out2 =>
  tbind (pubPlayback (if out2 = "" then none else parse_twitch_playbackstate out2)) fun _ =>
  tbind (get_state "binary_sensor.firetv_twitch_is_focused") fun isF =>
  tbind (get_state "binary_sensor.firetv_twitch_playing") fun isP =>
  tbind (if truthyO isF && truthyO isP then uiaDump env else tpure none) fun xml =>
  pubChannel
    (match xml with
     | some x => if x = "" then some "unknown" else get_text_before_profile x
     | none => some "unknown")

/-- The connect-if-needed guard at the top of `_loop`. -/
def connGuard (env : Env) : TM Unit := fun s tr b =>
  if s.connected = false ∨ s.adb = none then connectT env s tr b else .ok () s tr b

/-- Rest of the `_loop` body after the connect-if-needed guard: the
extraction runs only behind the connected check. -/
def tickRest (env : Env) : TM Unit :=
  tbind getSt fun s1 =>
  if s1.connected then extraction env else tpure ()

/-- Body of `_loop` inside the `try`. -/
def tickBody (env : Env) : TM Unit :=
  tbind (connGuard env) fun _ => tickRest env

/-- Embeds one invocation of `TwitchPlayback._loop`: the body runs
under the catch-all handler that forces `connected := False`; the
re-arming of the timer in `finally` is not part of the state.
Returns the post-tick state and the tick trace. -/
def tick (env : Env) (s : LoopState) : LoopState × List Act :=
  match tickBody env s [] env.haBudget with
  | .ok _ s1 tr _ => (s1, tr)
  | .exc s1 tr => ({ s1 with connected := false }, tr)

/-- State after `initialize` (before the first scheduled tick). -/
def initState (pfx : String) : LoopState :=
  { connected := false, adb := none, lastPB := none, lastF := none
    lastCh := none, sink := [], pfx := pfx }

/-- States reached by running a sequence of ticks. -/
def runTicks (envs : List Env) (s : LoopState) : LoopState :=
  envs.foldl (fun st e => (tick e st).1) s

/-- Run a publisher on its own with no HomeAssistant failure,
returning the final state and the trace of sink calls and events. -/
def runPub (m : TM Unit) (s : LoopState) : LoopState × List Act :=
  match m s [] none with
  | .ok _ s1 tr _ => (s1, tr)
  | .exc s1 tr => (s1, tr)

end TwitchPlayback


/-! ## Concrete inputs used by witnesses and counterexamples -/

open TwitchPlayback in
/-- A connected state with all three last-known values set. -/
def sFull : LoopState :=
  { connected := true, adb := some (), lastPB := some 3, lastF := some true
    lastCh := some "x", sink := [], pfx := "firetv_twitch" }

/-- A connected state with no last-known values yet. -/
def sFresh : LoopState :=
  { connected := true, adb := some (), lastPB := none, lastF := none
    lastCh := none, sink := [], pfx := "firetv_twitch" }

/-- An environment in which every shell command raises. -/
def envAllRaise : Env :=
  { connectRes := .cret true, shell := fun _ => .sraise
    closeRaises := false, haBudget := none }

/-- An environment in which the connect attempt returns a falsy
result and shell commands return nothing. -/
def envConnFalse : Env :=
  { connectRes := .cret false, shell := fun _ => .snone
    closeRaises := false, haBudget := none }

/-- A window dump whose focus line names the Twitch package. -/
def focusText : String :=
  "mCurrentFocus=Window" ++ String.mk [obrace]
    ++ "u0 tv.twitch.android.viewer/Activity" ++ String.mk [cbrace]

/-- A UI dump with the channel label preceding the profile link. -/
def xmlChan : String :=
  "<hierarchy><node text=\"ChannelName\"/><node text=\"Go to ChannelName"
    ++ String.mk [apos] ++ "s profile...\"/></hierarchy>"

open TwitchPlayback in
/-- An environment for a tick in which focus parses true, playback
parses to nothing (hence the playing sensor publishes off), and the
UI dump pipeline succeeds with `xmlChan`. -/
def envGate : Env :=
  { connectRes := .cret true
    shell := fun c =>
      if c = "dumpsys window" then .sstr focusText
      else if c = "dumpsys media_session" then .sstr "idle"
      else if c = dumpCmd then .sstr "dumped"
      else if c = catCmd then .sstr xmlChan
      else .snone
    closeRaises := false, haBudget := none }

/-- The session dump of the specification scenario: anchor header,
one intervening line, then a PlaybackState record with state 3. -/
def scenText : String :=
  "...TwitchMediaSession tv.twitch.android.viewer/TwitchMediaSession\nfoo\nPlaybackState "
    ++ String.mk [obrace] ++ "token=1 state=3 extra" ++ String.mk [cbrace] ++ "\n..."

/-- A session dump whose only PlaybackState record sits 46 lines
after the anchor header, well beyond the 40-line window. -/
def farText : String :=
  "TwitchMediaSession tv.twitch.android.viewer/TwitchMediaSession"
    ++ (List.replicate 45 "\nfiller").foldl (· ++ ·) ""
    ++ "\nPlaybackState " ++ String.mk [obrace] ++ "state=5" ++ String.mk [cbrace]

/-- Profile-link node nested one level deep (first child of its
parent). -/
def xNode : XTree :=
  XTree.node "node" [("text", "Go to X" ++ String.mk [apos] ++ "s profile")] []

/-- Parent of `xNode`, itself a non-matching node child of the
root. -/
def aNode : XTree := XTree.node "node" [("text", "A")] [xNode]

/-- A top-level matching node that comes after `aNode` (and hence
after `xNode`) in document order. -/
def bNode : XTree :=
  XTree.node "node" [("text", "Go to B" ++ String.mk [apos] ++ "s profile")] []

/-- Root of the nested counterexample document. -/
def trootNested : XTree := XTree.node "hierarchy" [] [aNode, bNode]

/-- The nested counterexample document: in document pre-order the
first matching node is `xNode`, which is the first child of its
parent, yet the deepest-last parent scan of the code finds `bNode`
under the root first and returns the label of `aNode`. -/
def xmlNested : String :=
  "<hierarchy><node text=\"A\"><node text=\"Go to X" ++ String.mk [apos]
    ++ "s profile\"/></node><node text=\"Go to B" ++ String.mk [apos]
    ++ "s profile\"/></hierarchy>"

/-- Channel-label node of the specification scenario document. -/
def c1Node : XTree := XTree.node "node" [("text", "ChannelName")] []

/-- Profile-link node of the specification scenario document. -/
def c2Node : XTree :=
  XTree.node "node"
    [("text", "Go to ChannelName" ++ String.mk [apos] ++ "s profile...")] []

/-- Root of the specification scenario document. -/
def chanRoot : XTree := XTree.node "hierarchy" [] [c1Node, c2Node]

/-- A profile-link node that is the first child of its parent. -/
def fNode : XTree :=
  XTree.node "node" [("text", "Go to F" ++ String.mk [apos] ++ "s profile")] []

/-- Root whose only node child is the profile link itself. -/
def fRoot : XTree := XTree.node "hierarchy" [] [fNode]

/-- Is this action a state-sink publish call? -/
def isPubAct : Act → Bool
  | .publishS _ _ => true
  | _ => false

/-- Is this action a fired change event? -/
def isEvAct : Act → Bool
  | .eventF _ => true
  | _ => false

/-! ## Property shapes for the stateful embedding -/

/-- The handle invariant: whenever the connected flag is up, an ADB
handle is present. -/
def InvCA (s : LoopState) : Prop := s.connected = true → s.adb = some ()

/-- The handle invariant evaluated on a computation result (both on
normal return and at a raise point). -/
def InvT {α : Type} : TRes α → Prop
  | .ok _ s _ _ => InvCA s
  | .exc s _ => InvCA s

/-- A computation preserves the handle invariant. -/
def PresInv {α : Type} (m : TM α) : Prop :=
  ∀ s tr b, InvCA s → InvT (m s tr b)

/-- The result trace extends the given entry trace. -/
def TraceExtAt {α : Type} (tr : List Act) : TRes α → Prop
  | .ok _ _ tr1 _ => ∃ d, tr1 = tr ++ d
  | .exc _ tr1 => ∃ d, tr1 = tr ++ d

/-- A computation only appends to the ghost trace. -/
def TraceExt {α : Type} (m : TM α) : Prop :=
  ∀ s tr b, TraceExtAt tr (m s tr b)

/-- If the result returned with the connected flag up, the flag was
up at entry and no failed shell call is in the result trace that was
not already in the entry trace. -/
def ShPAt {α : Type} (s : LoopState) (tr : List Act) : TRes α → Prop
  | .ok _ s1 tr1 _ => s1.connected = true →
      s.connected = true ∧
        ∀ c, Act.shellEx c true ∈ tr1 → Act.shellEx c true ∈ tr
  | .exc _ _ => True

/-- A computation cannot end connected after a new failed shell
call. -/
def ShP {α : Type} (m : TM α) : Prop :=
  ∀ s tr b, ShPAt s tr (m s tr b)

/-! ## Helper lemmas -/

theorem subList_iff_infix (n h : List Char) :
    subList n h = true ↔ n <:+: h := by
  induction h with
  | nil => cases n <;> simp [subList, List.isEmpty]
  | cons c t ih => simp [subList, List.infix_cons_iff, ih]

/-! ## Claims -/

/-- C7: for every command, when the connected flag is false or the
connection handle is absent, `_adb_shell` returns the empty string
immediately, leaving the state, the ghost trace and the call budget
untouched — in particular no transport I/O is attempted. -/
theorem C7_disconnected_shell_noop (env : Env) (cmd : String) (s : LoopState)
    (tr : List Act) (b : Option Nat) (h : s.connected = false ∨ s.adb = none) :
    TwitchPlayback.adb_shell env cmd s tr b = .ok "" s tr b := by
  unfold TwitchPlayback.adb_shell
  rw [if_pos h]

theorem C7_disconnected_shell_noop_witness :
    TwitchPlayback.adb_shell envConnFalse "dumpsys window"
        (TwitchPlayback.initState "firetv_twitch") [] none =
      .ok "" (TwitchPlayback.initState "firetv_twitch") [] none :=
  C7_disconnected_shell_noop envConnFalse "dumpsys window"
    (TwitchPlayback.initState "firetv_twitch") [] none (Or.inl rfl)

/-- C8: for every command execution in which the underlying shell
call raises, `_adb_shell` clears the connected flag, appends the
failed call and the swallowed best-effort close to the trace,
discards the handle, and returns the empty string normally (the
result is an `ok`, not an exception, so nothing propagates to the
caller); the outcome does not depend on whether the close raises. -/
theorem C8_shell_error_teardown (env : Env) (cmd : String) (s : LoopState)
    (tr : List Act) (b : Option Nat)
    (h1 : s.connected = true) (h2 : s.adb = some ()) (h3 : env.shell cmd = .sraise) :
    TwitchPlayback.adb_shell env cmd s tr b =
      .ok "" { s with connected := false, adb := none }
        (tr ++ [.shellEx cmd true, .closeCall]) b := by
  unfold TwitchPlayback.adb_shell
  rw [if_neg (by simp [h1, h2]), h3]

theorem C8_shell_error_teardown_witness :
    TwitchPlayback.adb_shell envAllRaise "dumpsys window" sFull [] none =
      .ok "" { sFull with connected := false, adb := none }
        ([] ++ [.shellEx "dumpsys window" true, .closeCall]) none :=
  C8_shell_error_teardown envAllRaise "dumpsys window" sFull [] none rfl rfl rfl

/-- C2, evaluation at the failing input: in a tick where the focus
sensor is published on and the playing sensor is published off, the
code still issues the UI-dump shell command and publishes a concrete
channel name instead of the Unknown sentinel, because `get_state`
returns the strings on and off and the string off is truthy in
Python.  This contradicts the claim that the dump is not issued and
that the channel published is Unknown. -/
theorem C2_gate_truthiness_bug :
    Act.publishS "binary_sensor.firetv_twitch_is_focused" (.pStr "on")
        ∈ (TwitchPlayback.tick envGate sFresh).2
    ∧ Act.publishS "binary_sensor.firetv_twitch_playing" (.pStr "off")
        ∈ (TwitchPlayback.tick envGate sFresh).2
    ∧ Act.shellEx TwitchPlayback.dumpCmd false ∈ (TwitchPlayback.tick envGate sFresh).2
    ∧ Act.publishS "sensor.firetv_twitch_playback_channel" (.pStr "ChannelName")
        ∈ (TwitchPlayback.tick envGate sFresh).2 := by
  decide

set_option maxRecDepth 4000 in
/-- C3: the specification scenario parses to state 3 with derived
is-playing true, but on a text whose only PlaybackState record sits 46
lines after the header — where the claim demands a nothing result —
the parser still returns the state, because `re.DOTALL` lets the
fallback expression span arbitrarily many lines. -/
theorem C3_fallback_window_unbounded :
    TwitchPlayback.parse_twitch_playbackstate scenText = some 3
    ∧ TwitchPlayback.is_playing_of (TwitchPlayback.parse_twitch_playbackstate scenText) = true
    ∧ TwitchPlayback.parse_twitch_playbackstate farText = some 5 := by
  decide

/-- C1, counterexample to the claim as stated: in a tick whose first
shell command raises, the session is torn down, but the remaining
signals are still published (with null values) and change events for
them still fire, and the stored last-known values are overwritten
rather than retained. -/
theorem C1_fail_tick_still_publishes_cex :
    (TwitchPlayback.tick envAllRaise sFull).1.connected = false
    ∧ Act.publishS "sensor.firetv_twitch_playback_state" (.pStr "unknown")
        ∈ (TwitchPlayback.tick envAllRaise sFull).2
    ∧ Act.eventF "twitch_playback_state_changed" ∈ (TwitchPlayback.tick envAllRaise sFull).2
    ∧ Act.eventF "twitch_is_focused_changed" ∈ (TwitchPlayback.tick envAllRaise sFull).2
    ∧ (TwitchPlayback.tick envAllRaise sFull).1.lastPB = none := by
  decide

/-- C6: publishing the same value twice in a row, for each of the
three signals: each invocation performs its unconditional state-sink
writes (one entity for focus and channel, two for playback state, so
the writes appear twice over the two calls), the second call performs
exactly the publish part of the first call and emits no change event,
and the first call emits an event precisely when the value differs
from the stored last-known value. -/
theorem C6_publish_idempotent (s : LoopState) :
    (∀ v : Option Bool,
      ((TwitchPlayback.runPub (TwitchPlayback.pubFocus v) s).2.filter isPubAct).length = 1
      ∧ (TwitchPlayback.runPub (TwitchPlayback.pubFocus v)
           (TwitchPlayback.runPub (TwitchPlayback.pubFocus v) s).1).2
          = (TwitchPlayback.runPub (TwitchPlayback.pubFocus v) s).2.filter isPubAct
      ∧ ((TwitchPlayback.runPub (TwitchPlayback.pubFocus v) s).2.filter isEvAct = [] ↔
          v = s.lastF))
    ∧ (∀ v : Option Nat,
      ((TwitchPlayback.runPub (TwitchPlayback.pubPlayback v) s).2.filter isPubAct).length = 2
      ∧ (TwitchPlayback.runPub (TwitchPlayback.pubPlayback v)
           (TwitchPlayback.runPub (TwitchPlayback.pubPlayback v) s).1).2
          = (TwitchPlayback.runPub (TwitchPlayback.pubPlayback v) s).2.filter isPubAct
      ∧ ((TwitchPlayback.runPub (TwitchPlayback.pubPlayback v) s).2.filter isEvAct = [] ↔
          v = s.lastPB))
    ∧ (∀ v : Option String,
      ((TwitchPlayback.runPub (TwitchPlayback.pubChannel v) s).2.filter isPubAct).length = 1
      ∧ (TwitchPlayback.runPub (TwitchPlayback.pubChannel v)
           (TwitchPlayback.runPub (TwitchPlayback.pubChannel v) s).1).2
          = (TwitchPlayback.runPub (TwitchPlayback.pubChannel v) s).2.filter isPubAct
      ∧ ((TwitchPlayback.runPub (TwitchPlayback.pubChannel v) s).2.filter isEvAct = [] ↔
          v = s.lastCh)) := by
  refine ⟨fun v => ?_, fun v => ?_, fun v => ?_⟩
  · by_cases hv : v = s.lastF <;>
      simp [TwitchPlayback.runPub, TwitchPlayback.pubFocus, tbind, getSt, set_state,
        fire_event, haTry, modSt, tpure, hv, isPubAct, isEvAct]
  · by_cases hv : v = s.lastPB <;>
      simp [TwitchPlayback.runPub, TwitchPlayback.pubPlayback, tbind, getSt, set_state,
        fire_event, haTry, modSt, tpure, hv, isPubAct, isEvAct]
  · by_cases hv : v = s.lastCh <;>
      simp [TwitchPlayback.runPub, TwitchPlayback.pubChannel, tbind, getSt, set_state,
        fire_event, haTry, modSt, tpure, hv, isPubAct, isEvAct]

/-- C4: for every window-dump text, `_parse_twitch_appinfocus`
returns true exactly when some LF-separated line of the text contains
both the package identifier and the focus marker as substrings; and
on nonempty text in which no single line contains both (in
particular when the two substrings occur only on different lines) it
returns false. -/
theorem C4_focus_line_iff (text : String) :
    (TwitchPlayback.parse_twitch_appinfocus text = some true ↔
      ∃ l ∈ splitNl text.data,
        TwitchPlayback.anchorFocus.data <:+: l ∧ TwitchPlayback.markerFocus.data <:+: l)
    ∧ (text ≠ "" →
        (∀ l ∈ splitNl text.data,
          ¬(TwitchPlayback.anchorFocus.data <:+: l ∧ TwitchPlayback.markerFocus.data <:+: l)) →
        TwitchPlayback.parse_twitch_appinfocus text = some false) := by
  constructor
  · unfold TwitchPlayback.parse_twitch_appinfocus
    by_cases h : text = ""
    · subst h
      rw [if_pos rfl]
      constructor
      · intro hx; cases hx
      · rintro ⟨l, hl, ha, -⟩
        have hl0 : l = [] := by
          have he : splitNl ("" : String).data = [[]] := rfl
          rw [he] at hl
          simpa using hl
        subst hl0
        exact absurd (List.infix_nil.mp ha) (by decide)
    · rw [if_neg h]
      simp only [Option.some.injEq, List.any_eq_true, Bool.and_eq_true, subList_iff_infix]
  · intro hne hall
    unfold TwitchPlayback.parse_twitch_appinfocus
    rw [if_neg hne]
    have hfalse : ((splitNl text.data).any fun x =>
        subList TwitchPlayback.anchorFocus.data x &&
        subList TwitchPlayback.markerFocus.data x) = false := by
      rw [List.any_eq_false]
      intro l hl
      simp only [Bool.and_eq_true, subList_iff_infix]
      exact hall l hl
    rw [hfalse]

theorem C4_focus_line_iff_witness :
    "tv.twitch.android.viewer\nmCurrentFocus=x" ≠ ""
    ∧ TwitchPlayback.parse_twitch_appinfocus
        "tv.twitch.android.viewer\nmCurrentFocus=x" = some false :=
  ⟨by decide,
   (C4_focus_line_iff "tv.twitch.android.viewer\nmCurrentFocus=x").2
     (by decide) (by decide)⟩

/-- C5, counterexample to the claim as stated: in `xmlNested` the
first node in full document pre-order whose text matches the profile
pattern is `xNode`, and it is the first child of its parent `aNode`,
so the claim requires a nothing result; but the code iterates parents
in pre-order and inspects all children of the root before descending,
finds the match `bNode` at index 1 under the root first, and returns
the text of `aNode`. -/
theorem C5_preorder_claim_cex :
    parseXML xmlNested = some trootNested
    ∧ (preorder trootNested).find? (fun n => matchProfile (textAttrD n)) = some xNode
    ∧ (preorder trootNested)[1]? = some aNode
    ∧ (nodeKids aNode)[0]? = some xNode
    ∧ TwitchPlayback.get_text_before_profile xmlNested = some "A" :=
  ⟨rfl, rfl, rfl, rfl, rfl⟩

/-- C5, amended: the search is decided by the first parent in
pre-order that owns a matching node child (not by the document-order
position of the matching node itself).  For such a parent, a match at
child index 0 gives a nothing result, and a match at index `i + 1`
returns the child at index `i`.  Malformed XML yields nothing without
raising, and the scenario document yields the channel label. -/
theorem C5_first_parent_match (t : XTree) (l1 l2 : List XTree) (P : XTree)
    (hpre : preorder t = l1 ++ P :: l2)
    (hnone : ∀ Q ∈ l1, parentStep Q = none) :
    ((nodeKids P).findIdx? (fun k => matchProfile (textAttrD k)) = some 0 →
      findPrevInTree t = none)
    ∧ (∀ i prev,
        (nodeKids P).findIdx? (fun k => matchProfile (textAttrD k)) = some (i + 1) →
        (nodeKids P)[i]? = some prev →
        findPrevInTree t = some prev)
    ∧ parseXML "<hierarchy" = none
    ∧ TwitchPlayback.get_text_before_profile xmlChan = some "ChannelName" := by
  have hfs : (preorder t).findSome? parentStep = (P :: l2).findSome? parentStep := by
    rw [hpre, List.findSome?_append, List.findSome?_eq_none_iff.mpr hnone]
    rfl
  refine ⟨?_, ?_, rfl, rfl⟩
  · intro h0
    unfold findPrevInTree
    rw [hfs, List.findSome?_cons]
    have hp : parentStep P = some none := by
      unfold parentStep
      rw [h0]
    rw [hp]
    rfl
  · intro i prev hidx hget
    unfold findPrevInTree
    rw [hfs, List.findSome?_cons]
    have hp : parentStep P = some (some prev) := by
      unfold parentStep
      rw [hidx]
      show some (nodeKids P)[i]? = some (some prev)
      rw [hget]
    rw [hp]
    rfl

theorem C5_first_parent_match_witness :
    findPrevInTree chanRoot = some c1Node ∧ findPrevInTree fRoot = none :=
  ⟨(C5_first_parent_match chanRoot [] [c1Node, c2Node] chanRoot rfl
      (by intro Q h; cases h)).2.1 0 c1Node (by decide) rfl,
   (C5_first_parent_match fRoot [] [fNode] fRoot rfl
      (by intro Q h; cases h)).1 (by decide)⟩

/-! ## Invariant-preservation infrastructure -/

theorem invCA_congr {s s' : LoopState} (hc : s'.connected = s.connected)
    (ha : s'.adb = s.adb) (hs : InvCA s) : InvCA s' := by
  intro h
  rw [ha]
  exact hs (by rw [← hc]; exact h)

theorem presInv_tbind {α β : Type} {m : TM α} {f : α → TM β}
    (hm : PresInv m) (hf : ∀ a, PresInv (f a)) : PresInv (tbind m f) := by
  intro s tr b hs
  have h1 := hm s tr b hs
  unfold tbind
  cases hm2 : m s tr b with
  | ok a s1 tr1 b1 =>
    rw [hm2] at h1
    exact hf a s1 tr1 b1 h1
  | exc s1 tr1 =>
    rw [hm2] at h1
    exact h1

theorem postInv_tbind {α β : Type} {m : TM α} {f : α → TM β}
    (hm : ∀ s tr b, InvT (m s tr b)) (hf : ∀ a, PresInv (f a)) :
    ∀ s tr b, InvT (tbind m f s tr b) := by
  intro s tr b
  have h1 := hm s tr b
  unfold tbind
  cases hm2 : m s tr b with
  | ok a s1 tr1 b1 =>
    rw [hm2] at h1
    exact hf a s1 tr1 b1 h1
  | exc s1 tr1 =>
    rw [hm2] at h1
    exact h1

theorem presInv_tpure {α : Type} (a : α) : PresInv (tpure a) :=
  fun _ _ _ hs => hs

theorem presInv_getSt : PresInv getSt :=
  fun _ _ _ hs => hs

theorem presInv_modSt (f : LoopState → LoopState)
    (h : ∀ s, (f s).connected = s.connected ∧ (f s).adb = s.adb) :
    PresInv (modSt f) :=
  fun s _ _ hs => invCA_congr (h s).1 (h s).2 hs

theorem presInv_haTry (eff : LoopState → LoopState) (acts : List Act)
    (h : ∀ s, (eff s).connected = s.connected ∧ (eff s).adb = s.adb) :
    PresInv (haTry eff acts) := by
  intro s tr b hs
  unfold haTry
  cases b with
  | none => exact invCA_congr (h s).1 (h s).2 hs
  | some n =>
    cases n with
    | zero => exact hs
    | succ k => exact invCA_congr (h s).1 (h s).2 hs

theorem presInv_set_state (ent : String) (v : PVal) : PresInv (set_state ent v) :=
  presInv_haTry _ _ (fun _ => ⟨rfl, rfl⟩)

theorem presInv_fire_event (nm : String) : PresInv (fire_event nm) :=
  presInv_haTry _ _ (fun _ => ⟨rfl, rfl⟩)

theorem presInv_get_state (ent : String) : PresInv (get_state ent) := by
  intro s tr b hs
  unfold get_state
  cases b with
  | none => exact hs
  | some n =>
    cases n with
    | zero => exact hs
    | succ k => exact hs

theorem presInv_ite {α : Type} (c : Prop) [Decidable c] (m1 m2 : TM α)
    (h1 : PresInv m1) (h2 : PresInv m2) : PresInv (if c then m1 else m2) := by
  by_cases hc : c
  · rw [if_pos hc]; exact h1
  · rw [if_neg hc]; exact h2

theorem presInv_adb_shell (env : Env) (cmd : String) :
    PresInv (TwitchPlayback.adb_shell env cmd) := by
  intro s tr b hs
  unfold TwitchPlayback.adb_shell
  by_cases hg : s.connected = false ∨ s.adb = none
  · rw [if_pos hg]; exact hs
  · rw [if_neg hg]
    cases env.shell cmd with
    | sraise => exact fun h => nomatch h
    | sbytes ne dec =>
      cases ne with
      | true =>
        cases dec with
        | some str => exact hs
        | none => exact fun h => nomatch h
      | false => exact hs
    | sstr str => exact hs
    | snone => exact hs

theorem postInv_connectT (env : Env) :
    ∀ s tr b, InvT (TwitchPlayback.connectT env s tr b) := by
  intro s tr b
  unfold TwitchPlayback.connectT
  cases env.connectRes with
  | craise => exact fun h => nomatch h
  | cret ok => exact fun _ => rfl

theorem postInv_connGuard (env : Env) :
    ∀ s tr b, InvT (TwitchPlayback.connGuard env s tr b) := by
  intro s tr b
  unfold TwitchPlayback.connGuard
  by_cases hg : s.connected = false ∨ s.adb = none
  · rw [if_pos hg]; exact postInv_connectT env s tr b
  · rw [if_neg hg]
    push_neg at hg
    intro _
    cases ha : s.adb with
    | none => exact absurd ha hg.2
    | some u => cases u; rfl

theorem presInv_pubFocus (v : Option Bool) : PresInv (TwitchPlayback.pubFocus v) := by
  unfold TwitchPlayback.pubFocus
  refine presInv_tbind presInv_getSt fun s0 => ?_
  refine presInv_tbind (presInv_set_state _ _) fun _ => ?_
  refine presInv_tbind presInv_getSt fun s => ?_
  refine presInv_ite _ _ _ (presInv_tpure ()) ?_
  refine presInv_tbind (presInv_modSt _ fun s1 => ⟨rfl, rfl⟩) fun _ => ?_
  exact presInv_fire_event _

theorem presInv_pubPlayback (v : Option Nat) : PresInv (TwitchPlayback.pubPlayback v) := by
  unfold TwitchPlayback.pubPlayback
  refine presInv_tbind presInv_getSt fun s0 => ?_
  refine presInv_tbind (presInv_set_state _ _) fun _ => ?_
  refine presInv_tbind (presInv_set_state _ _) fun _ => ?_
  refine presInv_tbind presInv_getSt fun s => ?_
  refine presInv_ite _ _ _ (presInv_tpure ()) ?_
  refine presInv_tbind (presInv_modSt _ fun s1 => ⟨rfl, rfl⟩) fun _ => ?_
  exact presInv_fire_event _

theorem presInv_pubChannel (v : Option String) : PresInv (TwitchPlayback.pubChannel v) := by
  unfold TwitchPlayback.pubChannel
  refine presInv_tbind presInv_getSt fun s0 => ?_
  refine presInv_tbind (presInv_set_state _ _) fun _ => ?_
  refine presInv_tbind presInv_getSt fun s => ?_
  refine presInv_ite _ _ _ (presInv_tpure ()) ?_
  refine presInv_tbind (presInv_modSt _ fun s1 => ⟨rfl, rfl⟩) fun _ => ?_
  exact presInv_fire_event _

theorem presInv_uiaDump (env : Env) : PresInv (TwitchPlayback.uiaDump env) := by
  unfold TwitchPlayback.uiaDump
  refine presInv_tbind (presInv_adb_shell env _) fun out => ?_
  refine presInv_ite _ _ _ (presInv_tpure none) ?_
  refine presInv_tbind (presInv_adb_shell env _) fun xmlText => ?_
  exact presInv_ite _ _ _ (presInv_tpure none) (presInv_tpure _)

theorem presInv_extraction (env : Env) : PresInv (TwitchPlayback.extraction env) := by
  unfold TwitchPlayback.extraction
  refine presInv_tbind (presInv_adb_shell env _) fun out => ?_
  refine presInv_tbind (presInv_pubFocus _) fun _ => ?_
  refine presInv_tbind (presInv_adb_shell env _) fun out2 => ?_
  refine presInv_tbind (presInv_pubPlayback _) fun _ => ?_
  refine presInv_tbind (presInv_get_state _) fun isF => ?_
  refine presInv_tbind (presInv_get_state _) fun isP => ?_
  refine presInv_tbind ?_ fun xml => presInv_pubChannel _
  exact presInv_ite _ _ _ (presInv_uiaDump env) (presInv_tpure none)

theorem postInv_tickBody (env : Env) :
    ∀ s tr b, InvT (TwitchPlayback.tickBody env s tr b) := by
  unfold TwitchPlayback.tickBody TwitchPlayback.tickRest
  refine postInv_tbind (postInv_connGuard env) fun _ => ?_
  refine presInv_tbind presInv_getSt fun s1 => ?_
  exact presInv_ite _ _ _ (presInv_extraction env) (presInv_tpure ())

theorem postInv_tick (env : Env) (s : LoopState) :
    InvCA (TwitchPlayback.tick env s).1 := by
  unfold TwitchPlayback.tick
  have h := postInv_tickBody env s [] env.haBudget
  cases hb : TwitchPlayback.tickBody env s [] env.haBudget with
  | ok a s1 tr1 b1 =>
    rw [hb] at h
    exact h
  | exc s1 tr1 =>
    exact fun hc => nomatch hc

/-- C10: the handle invariant — whenever the connected flag is true an
ADB handle is present — holds after `initialize`, is established by
every `_connect` outcome, is preserved by `_adb_shell` (also on its
teardown path), holds after every tick of `_loop` (including the
catch-all exception path, which clears the flag), and therefore holds
in every state reachable by a sequence of ticks from the initial
state. -/
theorem C10_connected_implies_handle :
    (∀ p, InvCA (TwitchPlayback.initState p))
    ∧ (∀ env s tr b, InvT (TwitchPlayback.connectT env s tr b))
    ∧ (∀ env cmd s tr b, InvCA s → InvT (TwitchPlayback.adb_shell env cmd s tr b))
    ∧ (∀ env s, InvCA (TwitchPlayback.tick env s).1)
    ∧ (∀ envs p, InvCA (TwitchPlayback.runTicks envs (TwitchPlayback.initState p))) := by
  have hrun : ∀ (envs : List Env) (s : LoopState), InvCA s →
      InvCA (TwitchPlayback.runTicks envs s) := by
    intro envs
    induction envs with
    | nil => intro s hs; exact hs
    | cons e es ih =>
      intro s _
      exact ih (TwitchPlayback.tick e s).1 (postInv_tick e s)
  refine ⟨?_, ?_, ?_, ?_, ?_⟩
  · exact fun p h => nomatch h
  · exact postInv_connectT
  · exact fun env cmd => presInv_adb_shell env cmd
  · exact postInv_tick
  · exact fun envs p => hrun envs _ (fun h => nomatch h)

theorem C10_connected_implies_handle_witness :
    InvT (TwitchPlayback.adb_shell envAllRaise "dumpsys window" sFull [] none) :=
  C10_connected_implies_handle.2.2.1 envAllRaise "dumpsys window" sFull [] none
    (fun _ => rfl)

/-! ## Trace and shell-failure infrastructure -/

theorem traceExtAt_trans {α : Type} {tr tr1 d1 : List Act} (h : tr1 = tr ++ d1)
    {r : TRes α} (hr : TraceExtAt tr1 r) : TraceExtAt tr r := by
  cases r with
  | ok a s2 tr2 b2 =>
    obtain ⟨d2, hd2⟩ := hr
    exact ⟨d1 ++ d2, by rw [hd2, h, List.append_assoc]⟩
  | exc s2 tr2 =>
    obtain ⟨d2, hd2⟩ := hr
    exact ⟨d1 ++ d2, by rw [hd2, h, List.append_assoc]⟩

theorem traceExt_tbind {α β : Type} {m : TM α} {f : α → TM β}
    (hm : TraceExt m) (hf : ∀ a, TraceExt (f a)) : TraceExt (tbind m f) := by
  intro s tr b
  have h1 := hm s tr b
  unfold tbind
  cases hm2 : m s tr b with
  | ok a s1 tr1 b1 =>
    rw [hm2] at h1
    obtain ⟨d1, hd1⟩ := h1
    exact traceExtAt_trans hd1 (hf a s1 tr1 b1)
  | exc s1 tr1 =>
    rw [hm2] at h1
    exact h1

theorem traceExt_tpure {α : Type} (a : α) : TraceExt (tpure a) :=
  fun _ tr _ => ⟨[], (List.append_nil tr).symm⟩

theorem traceExt_getSt : TraceExt getSt :=
  fun _ tr _ => ⟨[], (List.append_nil tr).symm⟩

theorem traceExt_modSt (f : LoopState → LoopState) : TraceExt (modSt f) :=
  fun _ tr _ => ⟨[], (List.append_nil tr).symm⟩

theorem traceExt_haTry (eff : LoopState → LoopState) (acts : List Act) :
    TraceExt (haTry eff acts) := by
  intro s tr b
  unfold haTry
  cases b with
  | none => exact ⟨acts, rfl⟩
  | some n =>
    cases n with
    | zero => exact ⟨[], (List.append_nil tr).symm⟩
    | succ k => exact ⟨acts, rfl⟩

theorem traceExt_set_state (ent : String) (v : PVal) : TraceExt (set_state ent v) :=
  traceExt_haTry _ _

theorem traceExt_fire_event (nm : String) : TraceExt (fire_event nm) :=
  traceExt_haTry _ _

theorem traceExt_get_state (ent : String) : TraceExt (get_state ent) := by
  intro s tr b
  unfold get_state
  cases b with
  | none => exact ⟨[], (List.append_nil tr).symm⟩
  | some n =>
    cases n with
    | zero => exact ⟨[], (List.append_nil tr).symm⟩
    | succ k => exact ⟨[], (List.append_nil tr).symm⟩

theorem traceExt_ite {α : Type} (c : Prop) [Decidable c] (m1 m2 : TM α)
    (h1 : TraceExt m1) (h2 : TraceExt m2) : TraceExt (if c then m1 else m2) := by
  by_cases hc : c
  · rw [if_pos hc]; exact h1
  · rw [if_neg hc]; exact h2

theorem traceExt_adb_shell (env : Env) (cmd : String) :
    TraceExt (TwitchPlayback.adb_shell env cmd) := by
  intro s tr b
  unfold TwitchPlayback.adb_shell
  by_cases hg : s.connected = false ∨ s.adb = none
  · rw [if_pos hg]; exact ⟨[], (List.append_nil tr).symm⟩
  · rw [if_neg hg]
    cases env.shell cmd with
    | sraise => exact ⟨_, rfl⟩
    | sbytes ne dec =>
      cases ne with
      | true =>
        cases dec with
        | some str => exact ⟨_, rfl⟩
        | none => exact ⟨_, rfl⟩
      | false => exact ⟨_, rfl⟩
    | sstr str => exact ⟨_, rfl⟩
    | snone => exact ⟨_, rfl⟩

theorem traceExt_pubFocus (v : Option Bool) : TraceExt (TwitchPlayback.pubFocus v) := by
  unfold TwitchPlayback.pubFocus
  refine traceExt_tbind traceExt_getSt fun s0 => ?_
  refine traceExt_tbind (traceExt_set_state _ _) fun _ => ?_
  refine traceExt_tbind traceExt_getSt fun s => ?_
  refine traceExt_ite _ _ _ (traceExt_tpure ()) ?_
  exact traceExt_tbind (traceExt_modSt _) fun _ => traceExt_fire_event _

theorem traceExt_pubPlayback (v : Option Nat) : TraceExt (TwitchPlayback.pubPlayback v) := by
  unfold TwitchPlayback.pubPlayback
  refine traceExt_tbind traceExt_getSt fun s0 => ?_
  refine traceExt_tbind (traceExt_set_state _ _) fun _ => ?_
  refine traceExt_tbind (traceExt_set_state _ _) fun _ => ?_
  refine traceExt_tbind traceExt_getSt fun s => ?_
  refine traceExt_ite _ _ _ (traceExt_tpure ()) ?_
  exact traceExt_tbind (traceExt_modSt _) fun _ => traceExt_fire_event _

theorem traceExt_pubChannel (v : Option String) : TraceExt (TwitchPlayback.pubChannel v) := by
  unfold TwitchPlayback.pubChannel
  refine traceExt_tbind traceExt_getSt fun s0 => ?_
  refine traceExt_tbind (traceExt_set_state _ _) fun _ => ?_
  refine traceExt_tbind traceExt_getSt fun s => ?_
  refine traceExt_ite _ _ _ (traceExt_tpure ()) ?_
  exact traceExt_tbind (traceExt_modSt _) fun _ => traceExt_fire_event _

theorem traceExt_uiaDump (env : Env) : TraceExt (TwitchPlayback.uiaDump env) := by
  unfold TwitchPlayback.uiaDump
  refine traceExt_tbind (traceExt_adb_shell env _) fun out => ?_
  refine traceExt_ite _ _ _ (traceExt_tpure none) ?_
  refine traceExt_tbind (traceExt_adb_shell env _) fun xmlText => ?_
  exact traceExt_ite _ _ _ (traceExt_tpure none) (traceExt_tpure _)

theorem traceExt_extraction (env : Env) : TraceExt (TwitchPlayback.extraction env) := by
  unfold TwitchPlayback.extraction
  refine traceExt_tbind (traceExt_adb_shell env _) fun out => ?_
  refine traceExt_tbind (traceExt_pubFocus _) fun _ => ?_
  refine traceExt_tbind (traceExt_adb_shell env _) fun out2 => ?_
  refine traceExt_tbind (traceExt_pubPlayback _) fun _ => ?_
  refine traceExt_tbind (traceExt_get_state _) fun isF => ?_
  refine traceExt_tbind (traceExt_get_state _) fun isP => ?_
  refine traceExt_tbind ?_ fun xml => traceExt_pubChannel _
  exact traceExt_ite _ _ _ (traceExt_uiaDump env) (traceExt_tpure none)

theorem shPAt_trans {α : Type} {s s1 : LoopState} {tr tr1 : List Act}
    (h1 : s1.connected = true →
      s.connected = true ∧
        ∀ c, Act.shellEx c true ∈ tr1 → Act.shellEx c true ∈ tr)
    {r : TRes α} (hr : ShPAt s1 tr1 r) : ShPAt s tr r := by
  cases r with
  | ok a2 s2 tr2 b2 =>
    intro hc2
    obtain ⟨hc1, hs2⟩ := hr hc2
    obtain ⟨hc0, hs1⟩ := h1 hc1
    exact ⟨hc0, fun c h => hs1 c (hs2 c h)⟩
  | exc _ _ => trivial

theorem shP_tbind {α β : Type} {m : TM α} {f : α → TM β}
    (hm : ShP m) (hf : ∀ a, ShP (f a)) : ShP (tbind m f) := by
  intro s tr b
  unfold tbind
  cases hm2 : m s tr b with
  | ok a s1 tr1 b1 =>
    have h1 := hm s tr b
    rw [hm2] at h1
    exact shPAt_trans h1 (hf a s1 tr1 b1)
  | exc s1 tr1 => trivial

theorem shP_tpure {α : Type} (a : α) : ShP (tpure a) :=
  fun _ _ _ hc => ⟨hc, fun _ h => h⟩

theorem shP_getSt : ShP getSt :=
  fun _ _ _ hc => ⟨hc, fun _ h => h⟩

theorem shP_get_state (ent : String) : ShP (get_state ent) := by
  intro s tr b
  unfold get_state
  cases b with
  | none => exact fun hc => ⟨hc, fun _ h => h⟩
  | some n =>
    cases n with
    | zero => trivial
    | succ k => exact fun hc => ⟨hc, fun _ h => h⟩

theorem shP_modSt (f : LoopState → LoopState)
    (hcf : ∀ s, (f s).connected = s.connected) : ShP (modSt f) := by
  intro s tr b
  intro hc
  exact ⟨by rw [← hcf s]; exact hc, fun _ h => h⟩

theorem shP_haTry (eff : LoopState → LoopState) (acts : List Act)
    (hcf : ∀ s, (eff s).connected = s.connected)
    (hacts : ∀ c, Act.shellEx c true ∉ acts) : ShP (haTry eff acts) := by
  intro s tr b
  unfold haTry
  cases b with
  | none =>
    intro hc
    refine ⟨by rw [← hcf s]; exact hc, fun c h => ?_⟩
    rcases List.mem_append.mp h with h | h
    · exact h
    · exact absurd h (hacts c)
  | some n =>
    cases n with
    | zero => trivial
    | succ k =>
      intro hc
      refine ⟨by rw [← hcf s]; exact hc, fun c h => ?_⟩
      rcases List.mem_append.mp h with h | h
      · exact h
      · exact absurd h (hacts c)

theorem shP_set_state (ent : String) (v : PVal) : ShP (set_state ent v) :=
  shP_haTry _ _ (fun _ => rfl) (by intro c h; simp at h)

theorem shP_fire_event (nm : String) : ShP (fire_event nm) :=
  shP_haTry _ _ (fun _ => rfl) (by intro c h; simp at h)

theorem shP_ite {α : Type} (c : Prop) [Decidable c] (m1 m2 : TM α)
    (h1 : ShP m1) (h2 : ShP m2) : ShP (if c then m1 else m2) := by
  by_cases hc : c
  · rw [if_pos hc]; exact h1
  · rw [if_neg hc]; exact h2

theorem shP_adb_shell (env : Env) (cmd : String) :
    ShP (TwitchPlayback.adb_shell env cmd) := by
  intro s tr b
  unfold TwitchPlayback.adb_shell
  by_cases hg : s.connected = false ∨ s.adb = none
  · rw [if_pos hg]; exact fun hc => ⟨hc, fun _ h => h⟩
  · rw [if_neg hg]
    have hmem : ∀ c : String, Act.shellEx c true ∈ tr ++ [Act.shellEx cmd false] →
        Act.shellEx c true ∈ tr := by
      intro c h
      rcases List.mem_append.mp h with h | h
      · exact h
      · simp at h
    cases env.shell cmd with
    | sraise => exact fun hc => nomatch hc
    | sbytes ne dec =>
      cases ne with
      | true =>
        cases dec with
        | some str => exact fun hc => ⟨hc, hmem⟩
        | none => exact fun hc => nomatch hc
      | false => exact fun hc => ⟨hc, hmem⟩
    | sstr str => exact fun hc => ⟨hc, hmem⟩
    | snone => exact fun hc => ⟨hc, hmem⟩

theorem shP_pubFocus (v : Option Bool) : ShP (TwitchPlayback.pubFocus v) := by
  unfold TwitchPlayback.pubFocus
  refine shP_tbind shP_getSt fun s0 => ?_
  refine shP_tbind (shP_set_state _ _) fun _ => ?_
  refine shP_tbind shP_getSt fun s => ?_
  refine shP_ite _ _ _ (shP_tpure ()) ?_
  exact shP_tbind (shP_modSt _ fun _ => rfl) fun _ => shP_fire_event _

theorem shP_pubPlayback (v : Option Nat) : ShP (TwitchPlayback.pubPlayback v) := by
  unfold TwitchPlayback.pubPlayback
  refine shP_tbind shP_getSt fun s0 => ?_
  refine shP_tbind (shP_set_state _ _) fun _ => ?_
  refine shP_tbind (shP_set_state _ _) fun _ => ?_
  refine shP_tbind shP_getSt fun s => ?_
  refine shP_ite _ _ _ (shP_tpure ()) ?_
  exact shP_tbind (shP_modSt _ fun _ => rfl) fun _ => shP_fire_event _

theorem shP_pubChannel (v : Option String) : ShP (TwitchPlayback.pubChannel v) := by
  unfold TwitchPlayback.pubChannel
  refine shP_tbind shP_getSt fun s0 => ?_
  refine shP_tbind (shP_set_state _ _) fun _ => ?_
  refine shP_tbind shP_getSt fun s => ?_
  refine shP_ite _ _ _ (shP_tpure ()) ?_
  exact shP_tbind (shP_modSt _ fun _ => rfl) fun _ => shP_fire_event _

theorem shP_uiaDump (env : Env) : ShP (TwitchPlayback.uiaDump env) := by
  unfold TwitchPlayback.uiaDump
  refine shP_tbind (shP_adb_shell env _) fun out => ?_
  refine shP_ite _ _ _ (shP_tpure none) ?_
  refine shP_tbind (shP_adb_shell env _) fun xmlText => ?_
  exact shP_ite _ _ _ (shP_tpure none) (shP_tpure _)

theorem shP_extraction (env : Env) : ShP (TwitchPlayback.extraction env) := by
  unfold TwitchPlayback.extraction
  refine shP_tbind (shP_adb_shell env _) fun out => ?_
  refine shP_tbind (shP_pubFocus _) fun _ => ?_
  refine shP_tbind (shP_adb_shell env _) fun out2 => ?_
  refine shP_tbind (shP_pubPlayback _) fun _ => ?_
  refine shP_tbind (shP_get_state _) fun isF => ?_
  refine shP_tbind (shP_get_state _) fun isP => ?_
  refine shP_tbind ?_ fun xml => shP_pubChannel _
  exact shP_ite _ _ _ (shP_uiaDump env) (shP_tpure none)

theorem connGuard_spec (env : Env) (s : LoopState) (tr : List Act) (b : Option Nat) :
    ∃ s1 d, TwitchPlayback.connGuard env s tr b = .ok () s1 (tr ++ d) b
      ∧ ∀ c f, Act.shellEx c f ∉ d := by
  unfold TwitchPlayback.connGuard TwitchPlayback.connectT
  by_cases hg : s.connected = false ∨ s.adb = none
  · rw [if_pos hg]
    cases env.connectRes with
    | craise =>
      exact ⟨_, [.connectCall false], rfl, by intro c f h; simp at h⟩
    | cret ok =>
      exact ⟨_, [.connectCall ok], rfl, by intro c f h; simp at h⟩
  · rw [if_neg hg]
    exact ⟨s, [], by simp, by intro c f h; simp at h⟩

theorem connGuard_connect (env : Env) (s : LoopState) (b : Option Nat)
    (h : s.connected = false ∨ s.adb = none) :
    ∃ r s1, TwitchPlayback.connGuard env s [] b = .ok () s1 [Act.connectCall r] b := by
  unfold TwitchPlayback.connGuard TwitchPlayback.connectT
  rw [if_pos h]
  cases env.connectRes with
  | craise => exact ⟨false, _, rfl⟩
  | cret ok => exact ⟨ok, _, rfl⟩

/-- C9: first, a tick that records a failed shell call ends with the
connected flag down; second, a tick starting disconnected (as after
such a failure, which also drops the handle) performs its connect
attempt as the very first observable action, before any signal
extraction; third, when that connect attempt does not succeed,
nothing but the connect attempt happens in the tick — no shell I/O
and no publish, so signal extraction only ever runs while
connected. -/
theorem C9_reconnect_discipline :
    (∀ env s, (∃ c, Act.shellEx c true ∈ (TwitchPlayback.tick env s).2) →
        (TwitchPlayback.tick env s).1.connected = false)
    ∧ (∀ env s, s.connected = false →
        ∃ r d, (TwitchPlayback.tick env s).2 = Act.connectCall r :: d)
    ∧ (∀ env s, s.connected = false →
        env.connectRes = .craise ∨ env.connectRes = .cret false →
        (TwitchPlayback.tick env s).2 = [Act.connectCall false]
          ∧ (TwitchPlayback.tick env s).1.connected = false) := by
  have hshR : ∀ env, ShP (TwitchPlayback.tickRest env) := by
    intro env
    unfold TwitchPlayback.tickRest
    refine shP_tbind shP_getSt fun s2 => ?_
    exact shP_ite _ _ _ (shP_extraction env) (shP_tpure ())
  have htrR : ∀ env, TraceExt (TwitchPlayback.tickRest env) := by
    intro env
    unfold TwitchPlayback.tickRest
    refine traceExt_tbind traceExt_getSt fun s2 => ?_
    exact traceExt_ite _ _ _ (traceExt_extraction env) (traceExt_tpure ())
  refine ⟨?_, ?_, ?_⟩
  · intro env s hex
    obtain ⟨c, hc⟩ := hex
    unfold TwitchPlayback.tick at hc ⊢
    obtain ⟨s1, d, hcg, hnos⟩ := connGuard_spec env s [] env.haBudget
    have htb : TwitchPlayback.tickBody env s [] env.haBudget
        = TwitchPlayback.tickRest env s1 ([] ++ d) env.haBudget := by
      unfold TwitchPlayback.tickBody tbind
      rw [hcg]
    have hsh := hshR env s1 ([] ++ d) env.haBudget
    rw [htb] at hc ⊢
    cases hres : TwitchPlayback.tickRest env s1 ([] ++ d) env.haBudget with
    | ok a s2 tr2 b2 =>
      rw [hres] at hsh
      rw [hres] at hc
      cases hcon : s2.connected with
      | false => rfl
      | true =>
        obtain ⟨-, hsub⟩ := hsh hcon
        have hmem := hsub c hc
        rw [List.nil_append] at hmem
        exact absurd hmem (hnos c true)
    | exc s2 tr2 =>
      rfl
  · intro env s hdis
    unfold TwitchPlayback.tick
    obtain ⟨r, s1, hcg⟩ := connGuard_connect env s env.haBudget (Or.inl hdis)
    have htb : TwitchPlayback.tickBody env s [] env.haBudget
        = TwitchPlayback.tickRest env s1 [Act.connectCall r] env.haBudget := by
      unfold TwitchPlayback.tickBody tbind
      rw [hcg]
    have htr := htrR env s1 [Act.connectCall r] env.haBudget
    rw [htb]
    cases hres : TwitchPlayback.tickRest env s1 [Act.connectCall r] env.haBudget with
    | ok a s2 tr2 b2 =>
      rw [hres] at htr
      obtain ⟨d2, hd2⟩ := htr
      exact ⟨r, d2, hd2⟩
    | exc s2 tr2 =>
      rw [hres] at htr
      obtain ⟨d2, hd2⟩ := htr
      exact ⟨r, d2, hd2⟩
  · intro env s hdis hcr
    have hpos : s.connected = false ∨ s.adb = none := Or.inl hdis
    rcases hcr with h | h <;>
      simp only [TwitchPlayback.tick, TwitchPlayback.tickBody,
        TwitchPlayback.tickRest, tbind, TwitchPlayback.connGuard,
        TwitchPlayback.connectT, getSt, tpure, if_pos hpos, h] <;>
      simp [tpure]

theorem C9_reconnect_discipline_witness :
    (TwitchPlayback.tick envAllRaise sFull).1.connected = false
    ∧ (∃ r d, (TwitchPlayback.tick envConnFalse (TwitchPlayback.initState "p")).2
        = Act.connectCall r :: d)
    ∧ ((TwitchPlayback.tick envConnFalse (TwitchPlayback.initState "p")).2
        = [Act.connectCall false]
      ∧ (TwitchPlayback.tick envConnFalse (TwitchPlayback.initState "p")).1.connected
        = false) :=
  ⟨C9_reconnect_discipline.1 envAllRaise sFull ⟨"dumpsys window", by decide⟩,
   C9_reconnect_discipline.2.1 envConnFalse (TwitchPlayback.initState "p") rfl,
   C9_reconnect_discipline.2.2 envConnFalse (TwitchPlayback.initState "p") rfl
     (Or.inr rfl)⟩

/-- C1, amended: when the first shell command of a tick raises, the
session is torn down (flag cleared, handle dropped) and stays so to
the end of the tick, the tick is not aborted, and no further
transport I/O happens (the only shell action in the trace is the
failed one); however the remaining signals are not skipped: the
focus sensor is published off, the playback sensors are published
unknown and off, and the channel sensor is published unknown; the
stored last-known focus and playback values are overwritten with the
null value and the stored channel value with the string unknown; and
a change event fires for each remaining signal whose stored value
differed from the new one — null for focus and playback, the string
unknown for the channel. -/
theorem C1_fail_tick_amended (lF : Option Bool) (lPB : Option Nat)
    (lCh : Option String) (sink : List (String × PVal)) (env : Env)
    (h1 : env.shell "dumpsys window" = .sraise) (h2 : env.haBudget = none) :
    (TwitchPlayback.tick env
        ⟨true, some (), lPB, lF, lCh, sink, "firetv_twitch"⟩).1.connected = false
    ∧ (TwitchPlayback.tick env
        ⟨true, some (), lPB, lF, lCh, sink, "firetv_twitch"⟩).1.adb = none
    ∧ (∀ c f, Act.shellEx c f ∈ (TwitchPlayback.tick env
        ⟨true, some (), lPB, lF, lCh, sink, "firetv_twitch"⟩).2 →
        c = "dumpsys window" ∧ f = true)
    ∧ Act.publishS "binary_sensor.firetv_twitch_is_focused" (.pStr "off")
        ∈ (TwitchPlayback.tick env
            ⟨true, some (), lPB, lF, lCh, sink, "firetv_twitch"⟩).2
    ∧ Act.publishS "sensor.firetv_twitch_playback_state" (.pStr "unknown")
        ∈ (TwitchPlayback.tick env
            ⟨true, some (), lPB, lF, lCh, sink, "firetv_twitch"⟩).2
    ∧ Act.publishS "sensor.firetv_twitch_playback_channel" (.pStr "unknown")
        ∈ (TwitchPlayback.tick env
            ⟨true, some (), lPB, lF, lCh, sink, "firetv_twitch"⟩).2
    ∧ (lF ≠ none → Act.eventF "twitch_is_focused_changed"
        ∈ (TwitchPlayback.tick env
            ⟨true, some (), lPB, lF, lCh, sink, "firetv_twitch"⟩).2)
    ∧ (TwitchPlayback.tick env
        ⟨true, some (), lPB, lF, lCh, sink, "firetv_twitch"⟩).1.lastF = none
    ∧ (TwitchPlayback.tick env
        ⟨true, some (), lPB, lF, lCh, sink, "firetv_twitch"⟩).1.lastPB = none
    ∧ Act.publishS "binary_sensor.firetv_twitch_playing" (.pStr "off")
        ∈ (TwitchPlayback.tick env
            ⟨true, some (), lPB, lF, lCh, sink, "firetv_twitch"⟩).2
    ∧ (lPB ≠ none → Act.eventF "twitch_playback_state_changed"
        ∈ (TwitchPlayback.tick env
            ⟨true, some (), lPB, lF, lCh, sink, "firetv_twitch"⟩).2)
    ∧ (lCh ≠ some "unknown" → Act.eventF "twitch_playback_active_channel_changed"
        ∈ (TwitchPlayback.tick env
            ⟨true, some (), lPB, lF, lCh, sink, "firetv_twitch"⟩).2)
    ∧ (TwitchPlayback.tick env
        ⟨true, some (), lPB, lF, lCh, sink, "firetv_twitch"⟩).1.lastCh
      = some "unknown" := by
  cases lF <;> cases lPB <;>
    simp [TwitchPlayback.tick, TwitchPlayback.tickBody, TwitchPlayback.tickRest,
      TwitchPlayback.connGuard, TwitchPlayback.connectT, TwitchPlayback.extraction,
      TwitchPlayback.adb_shell, TwitchPlayback.pubFocus, TwitchPlayback.pubPlayback,
      TwitchPlayback.pubChannel, TwitchPlayback.uiaDump, TwitchPlayback.dumpCmd,
      TwitchPlayback.catCmd, tbind, tpure, getSt, modSt, set_state, fire_event,
      get_state, haTry, truthyB, truthyO, TwitchPlayback.is_playing_of, apply_ite,
      sinkLookup, List.reverse_append, List.find?, h1, h2] <;>
    split_ifs with hch <;>
    simp [TwitchPlayback.tick, TwitchPlayback.tickBody, TwitchPlayback.tickRest,
      TwitchPlayback.connGuard, TwitchPlayback.connectT, TwitchPlayback.extraction,
      TwitchPlayback.adb_shell, TwitchPlayback.pubFocus, TwitchPlayback.pubPlayback,
      TwitchPlayback.pubChannel, TwitchPlayback.uiaDump, TwitchPlayback.dumpCmd,
      TwitchPlayback.catCmd, tbind, tpure, getSt, modSt, set_state, fire_event,
      get_state, haTry, truthyB, truthyO, TwitchPlayback.is_playing_of, hch]

theorem C1_fail_tick_amended_witness :
    (TwitchPlayback.tick envAllRaise
        ⟨true, some (), some 3, some true, some "x", [], "firetv_twitch"⟩).1.connected
      = false
    ∧ Act.eventF "twitch_is_focused_changed"
        ∈ (TwitchPlayback.tick envAllRaise
            ⟨true, some (), some 3, some true, some "x", [], "firetv_twitch"⟩).2
    ∧ Act.eventF "twitch_playback_state_changed"
        ∈ (TwitchPlayback.tick envAllRaise
            ⟨true, some (), some 3, some true, some "x", [], "firetv_twitch"⟩).2
    ∧ Act.eventF "twitch_playback_active_channel_changed"
        ∈ (TwitchPlayback.tick envAllRaise
            ⟨true, some (), some 3, some true, some "x", [], "firetv_twitch"⟩).2 :=
  ⟨(C1_fail_tick_amended (some true) (some 3) (some "x") [] envAllRaise rfl rfl).1,
   (C1_fail_tick_amended (some true) (some 3) (some "x") [] envAllRaise rfl
       rfl).2.2.2.2.2.2.1 (by decide),
   (C1_fail_tick_amended (some true) (some 3) (some "x") [] envAllRaise rfl
       rfl).2.2.2.2.2.2.2.2.2.2.1 (by decide),
   (C1_fail_tick_amended (some true) (some 3) (some "x") [] envAllRaise rfl
       rfl).2.2.2.2.2.2.2.2.2.2.2.1 (by decide)⟩
